import Mathlib

/-!
Verification of the mattermost-emoji-uploader program (src/main.go) against its
natural-language specification.  The Go program is shallowly embedded: pure
string manipulation becomes Lean functions on `String`/`List Char`, and the
network-dependent parts (`downloadImage`, `getUserID`, `uploadToMattermost`,
the `main` loop) become functions of explicit "behavior" oracles describing
what the network returns, so that the control flow of the Go code is modelled
exactly while the remote endpoints stay abstract.
-/

namespace MattermostEmojiUploader

/-! ## Go standard-library helpers used by the program -/

/-- Go `strings.Contains(s, sub)`, on the character level: scan every suffix
for `sub` as a leading segment.  The needle used by the program ("400") is
pure ASCII, for which byte-level and character-level containment agree. -/
def containsSub (pat : List Char) : List Char → Bool
  | [] => pat.isPrefixOf []
  | c :: rest => pat.isPrefixOf (c :: rest) || containsSub pat rest

/-- Go `strings.Contains` lifted to `String`. -/
def goContains (s sub : String) : Bool :=
  containsSub sub.toList s.toList

/-! ## NameSanitizer (`sanitizeEmojiName`, src/main.go lines 141-156) -/

/-- Modelled from the spec: the transliteration table of the external
go-unidecode dependency (its sources are not part of this repository).
Per the spec, each non-ASCII character maps to its nearest ASCII
approximation (Cyrillic ж→"zh") and characters with no mapping are dropped;
ASCII characters pass through unchanged.  The table is restricted to the
characters exercised by the spec's examples: ж→"zh", д→"d", у→"u". -/
def unidecodeChar (c : Char) : List Char :=
  if c.toNat < 128 then [c]
  else if c = 'ж' then ['z', 'h']
  else if c = 'д' then ['d']
  else if c = 'у' then ['u']
  else []

/-- `unidecode.Unidecode`: character-wise transliteration to ASCII. -/
def unidecode (s : String) : String :=
  String.mk (s.toList.flatMap unidecodeChar)

/-- Go `strings.ToLower`.  At its use site the input is the ASCII output of
`unidecode`, on which Unicode lowering coincides with per-character ASCII
case folding. -/
def goToLower (s : String) : String :=
  String.mk (s.toList.map Char.toLower)

/-- Go `strings.ReplaceAll(name, " ", "-")`: the pattern is a single
character, so the replacement is character-wise. -/
def replaceSpaceWithDash (s : String) : String :=
  String.mk (s.toList.map fun c => if c = ' ' then '-' else c)

/-- The character class of the regex `[^a-z0-9\-_]+` complemented: the
characters the sanitizer keeps. -/
def isEmojiChar (c : Char) : Bool :=
  ('a' ≤ c && c ≤ 'z') || ('0' ≤ c && c ≤ '9') || c == '-' || c == '_'

/-- `reg.ReplaceAllString(name, "")` for `reg = [^a-z0-9\-_]+`: deleting every
maximal run of forbidden characters is exactly filtering by the kept class. -/
def stripForbidden (s : String) : String :=
  String.mk (s.toList.filter isEmojiChar)

/-- `if len(name) > 64 { name = name[:64] }`.  At this point in the pipeline
the string is ASCII-only (it has passed `stripForbidden`), so Go's byte
length and byte slicing coincide with character length and character take. -/
def truncate64 (s : String) : String :=
  if 64 < s.length then String.mk (s.toList.take 64) else s

/-- `sanitizeEmojiName` (src/main.go lines 141-156): transliterate,
lowercase, dash the spaces, strip forbidden characters, truncate to 64. -/
def sanitizeEmojiName (name : String) : String :=
  truncate64 (stripForbidden (replaceSpaceWithDash (goToLower (unidecode name))))

/-! ## Character-level facts about the sanitizer alphabet -/

theorem isEmojiChar_toNat {c : Char} (h : isEmojiChar c = true) :
    (97 ≤ c.toNat ∧ c.toNat ≤ 122) ∨ (48 ≤ c.toNat ∧ c.toNat ≤ 57) ∨
      c.toNat = 45 ∨ c.toNat = 95 := by
  simp only [isEmojiChar, Bool.or_eq_true, Bool.and_eq_true, decide_eq_true_eq,
    beq_iff_eq] at h
  rcases h with ((⟨h1, h2⟩ | ⟨h1, h2⟩) | h) | h
  · rw [Char.le_def, UInt32.le_def] at h1 h2
    left
    constructor
    · exact h1
    · exact h2
  · rw [Char.le_def, UInt32.le_def] at h1 h2
    right; left
    constructor
    · exact h1
    · exact h2
  · subst h; decide
  · subst h; decide

theorem emojiChar_ascii {c : Char} (h : isEmojiChar c = true) : c.toNat < 128 := by
  have h2 := isEmojiChar_toNat h
  omega

theorem emojiChar_toLower {c : Char} (h : isEmojiChar c = true) :
    Char.toLower c = c := by
  have h2 := isEmojiChar_toNat h
  simp only [Char.toLower]
  rw [if_neg]
  omega

theorem emojiChar_not_space {c : Char} (h : isEmojiChar c = true) : c ≠ ' ' := by
  intro he
  subst he
  exact absurd h (by decide)

theorem emojiChar_unidecode {c : Char} (h : isEmojiChar c = true) :
    unidecodeChar c = [c] := by
  unfold unidecodeChar
  rw [if_pos (emojiChar_ascii h)]

/-! ## List helpers for the fixed-point argument -/

theorem flatMap_id_of_mem {α : Type} {f : α → List α} {l : List α}
    (h : ∀ c ∈ l, f c = [c]) : l.flatMap f = l := by
  induction l with
  | nil => rfl
  | cons c rest ih =>
    simp only [List.flatMap_cons]
    rw [h c (List.mem_cons_self c rest), ih (fun x hx => h x (List.mem_cons_of_mem c hx))]
    rfl

theorem map_id_of_mem {α : Type} {f : α → α} {l : List α}
    (h : ∀ c ∈ l, f c = c) : l.map f = l := by
  induction l with
  | nil => rfl
  | cons c rest ih =>
    simp only [List.map_cons]
    rw [h c (List.mem_cons_self c rest), ih (fun x hx => h x (List.mem_cons_of_mem c hx))]

theorem mk_toList (s : String) : String.mk s.toList = s := rfl

/-! ## The sanitizer's output invariant and fixed point -/

theorem stripForbidden_all (s : String) :
    (stripForbidden s).toList.all isEmojiChar = true := by
  rw [List.all_eq_true]
  intro c hc
  exact (List.mem_filter.mp hc).2

theorem sanitize_fixpoint (x : String)
    (halpha : x.toList.all isEmojiChar = true) (hlen : x.length ≤ 64) :
    sanitizeEmojiName x = x := by
  rw [List.all_eq_true] at halpha
  have h1 : unidecode x = x := by
    unfold unidecode
    rw [flatMap_id_of_mem (fun c hc => emojiChar_unidecode (halpha c hc))]
    exact mk_toList x
  have h2 : goToLower x = x := by
    unfold goToLower
    rw [map_id_of_mem (fun c hc => emojiChar_toLower (halpha c hc))]
    exact mk_toList x
  have h3 : replaceSpaceWithDash x = x := by
    unfold replaceSpaceWithDash
    rw [map_id_of_mem (fun c hc => if_neg (emojiChar_not_space (halpha c hc)))]
    exact mk_toList x
  have h4 : stripForbidden x = x := by
    unfold stripForbidden
    rw [List.filter_eq_self.mpr halpha]
    exact mk_toList x
  have h5 : truncate64 x = x := by
    unfold truncate64
    rw [if_neg (by omega)]
  unfold sanitizeEmojiName
  rw [h1, h2, h3, h4, h5]

/-- Claim C3: for every input string, including the empty string and strings
with no mappable characters, the sanitizer returns a string (it is a total
function, with no error outcome) whose length is at most 64 and whose every
character lies in the alphabet a-z, 0-9, dash, underscore; the empty string
is a valid output. -/
theorem sanitize_output_valid (name : String) :
    (sanitizeEmojiName name).length ≤ 64 ∧
      (sanitizeEmojiName name).toList.all isEmojiChar = true := by
  unfold sanitizeEmojiName
  have hall := stripForbidden_all (replaceSpaceWithDash (goToLower (unidecode name)))
  rw [List.all_eq_true] at hall
  unfold truncate64
  split
  · rename_i hgt
    constructor
    · show (List.take 64 _).length ≤ 64
      rw [List.length_take]
      omega
    · rw [List.all_eq_true]
      intro c hc
      exact hall c (List.take_subset 64 _ hc)
  · rename_i hle
    constructor
    · omega
    · rw [List.all_eq_true]
      exact hall

/-- Claim C4: sanitization is deterministic (it is a pure function) and
idempotent on its own output: for every string already drawn from the output
alphabet with length at most 64, applying the sanitizer twice equals applying
it once. -/
theorem sanitize_idempotent (x : String)
    (halpha : x.toList.all isEmojiChar = true) (hlen : x.length ≤ 64) :
    sanitizeEmojiName (sanitizeEmojiName x) = sanitizeEmojiName x := by
  rw [sanitize_fixpoint x halpha hlen]
  exact sanitize_fixpoint x halpha hlen

theorem sanitize_idempotent_witness :
    sanitizeEmojiName (sanitizeEmojiName "my-emoji_1") = sanitizeEmojiName "my-emoji_1" :=
  sanitize_idempotent "my-emoji_1" (by decide) (by decide)

/-- Claim C5: the sanitizer maps the spec's example inputs as stated:
"жду" transliterates to "zhdu", "My Emoji" lowercases and space-dashes to
"my-emoji", and "emoji@123" strips (not replaces) the forbidden character,
giving "emoji123". -/
theorem sanitize_examples :
    sanitizeEmojiName "жду" = "zhdu" ∧
      sanitizeEmojiName "My Emoji" = "my-emoji" ∧
      sanitizeEmojiName "emoji@123" = "emoji123" := by
  refine ⟨?_, ?_, ?_⟩ <;> decide

/-! ## HTTP model and EmojiUploader (`uploadToMattermost`, src/main.go lines 207-257) -/

/-- An HTTP response as the program observes it: numeric status and the body
text read by `io.ReadAll`. -/
structure HttpResponse where
  statusCode : Nat
  body : String
deriving DecidableEq

/-- The error string `fmt.Errorf("status %d: %s", resp.StatusCode, respBody)`
built by `uploadToMattermost` for a non-success response. -/
def uploadErrMsg (resp : HttpResponse) : String :=
  "status " ++ toString resp.statusCode ++ ": " ++ resp.body

/-- The value `uploadToMattermost` returns once it has a response
(src/main.go lines 250-256): `none` models a nil error (status 200 or 201),
`some msg` models the formatted error for any other status. -/
def uploadRespResult (resp : HttpResponse) : Option String :=
  if resp.statusCode != 200 && resp.statusCode != 201 then
    some (uploadErrMsg resp)
  else none

/-- Per-entry terminal states of the orchestrator (spec section 4.5). -/
inductive Outcome where
  | AliasSkipped
  | FetchFailed (detail : String)
  | Uploaded
  | DuplicateSkipped
  | UploadFailed (detail : String)
deriving DecidableEq

/-- `main`'s handling of a non-nil upload error (src/main.go lines 125-130):
duplicate detection by substring-matching "400" inside the error text. -/
def classifyUploadError (msg : String) : Outcome :=
  if goContains msg "400" then Outcome.DuplicateSkipped else Outcome.UploadFailed msg

/-- The per-response outcome of an upload attempt, combining
`uploadToMattermost`'s status check with `main`'s error classification. -/
def classifyUploadResp (resp : HttpResponse) : Outcome :=
  match uploadRespResult resp with
  | none => Outcome.Uploaded
  | some msg => classifyUploadError msg

/-! ## Facts about the substring scan -/

theorem containsSub_cons {pat : List Char} (c : Char) {l : List Char}
    (h : containsSub pat l = true) : containsSub pat (c :: l) = true := by
  simp only [containsSub, Bool.or_eq_true]
  right
  exact h

theorem containsSub_here {pat l : List Char}
    (h : pat.isPrefixOf l = true) : containsSub pat l = true := by
  cases l with
  | nil => exact h
  | cons c rest =>
    simp only [containsSub, Bool.or_eq_true]
    left
    exact h

/-- The error text for an HTTP 400 upload response always contains "400",
whatever the response body is. -/
theorem errMsg400_contains (b : String) :
    goContains (uploadErrMsg ⟨400, b⟩) "400" = true := by
  unfold goContains uploadErrMsg
  have hsplit : ("status " ++ toString (400 : Nat) ++ ": " ++ b).toList =
      's' :: 't' :: 'a' :: 't' :: 'u' :: 's' :: ' ' :: '4' :: '0' :: '0' :: ':' :: ' ' :: b.toList := by
    show (("status " ++ toString (400 : Nat) ++ ": ").data ++ b.data) = _
    have : ("status " ++ toString (400 : Nat) ++ ": ").data =
        ['s', 't', 'a', 't', 'u', 's', ' ', '4', '0', '0', ':', ' '] := by decide
    rw [this]
    rfl
  rw [hsplit]
  apply containsSub_cons
  apply containsSub_cons
  apply containsSub_cons
  apply containsSub_cons
  apply containsSub_cons
  apply containsSub_cons
  apply containsSub_cons
  apply containsSub_here
  simp [List.isPrefixOf]

/-- Claim C1 counterexample: the code does not classify solely by HTTP
status.  A response with status 500 whose body is the text "400" is
classified as a duplicate skip (because `main` substring-matches "400"
inside the error text, which embeds the body), although the claim demands
the UploadFailed outcome for every status other than 200, 201 and 400. -/
theorem upload_classification_counterexample :
    (500 ≠ 200 ∧ 500 ≠ 201 ∧ 500 ≠ 400) ∧
      classifyUploadResp ⟨500, "400"⟩ = Outcome.DuplicateSkipped ∧
      Outcome.DuplicateSkipped ≠ Outcome.UploadFailed (uploadErrMsg ⟨500, "400"⟩) := by
  refine ⟨by omega, ?_, by decide⟩
  decide

/-- Claim C1 amended: status 200 or 201 yields Uploaded, and status 400
always yields DuplicateSkipped; but for any other status the outcome is
decided by scanning the error text "status <code>: <body>" for the substring
"400" — DuplicateSkipped when it occurs (for example when the body mentions
400), UploadFailed with that text otherwise. -/
theorem upload_classification_amended (resp : HttpResponse) :
    (resp.statusCode = 200 ∨ resp.statusCode = 201 →
      classifyUploadResp resp = Outcome.Uploaded) ∧
    (resp.statusCode = 400 → classifyUploadResp resp = Outcome.DuplicateSkipped) ∧
    (resp.statusCode ≠ 200 → resp.statusCode ≠ 201 →
      classifyUploadResp resp =
        if goContains (uploadErrMsg resp) "400" then Outcome.DuplicateSkipped
        else Outcome.UploadFailed (uploadErrMsg resp)) := by
  obtain ⟨st, b⟩ := resp
  refine ⟨?_, ?_, ?_⟩
  · intro h
    rcases h with h | h <;> subst h <;> rfl
  · intro h
    subst h
    simp only [classifyUploadResp, uploadRespResult]
    rw [if_pos (by decide)]
    simp only [classifyUploadError]
    rw [if_pos (errMsg400_contains b)]
  · intro h200 h201
    simp only [classifyUploadResp, uploadRespResult]
    rw [if_pos]
    · rfl
    · simp only [Bool.and_eq_true, bne_iff_ne, ne_eq]
      exact ⟨h200, h201⟩

theorem upload_classification_amended_witness :
    classifyUploadResp ⟨400, "reason"⟩ = Outcome.DuplicateSkipped :=
  (upload_classification_amended ⟨400, "reason"⟩).2.1 rfl

/-! ## ImageFetcher (`downloadImage`, src/main.go lines 159-177) -/

/-- What the network returns to `client.Get`: status, the result of reading
the body (`io.ReadAll` may itself fail), and the Content-Type header. -/
structure FetchReply where
  status : Nat
  readResult : Except String String
  contentType : String

/-- Behavior oracle for one `client.Get` call: either a transport-level
failure (DNS, connection, timeout) or a reply. -/
inductive FetchBehavior where
  | netFail (msg : String)
  | reply (r : FetchReply)

/-- `downloadImage`: transport error is passed through; a status other than
200 yields the error "HTTP <status>" before the body is read; a body-read
error is passed through; otherwise the bytes and the verbatim Content-Type
are returned. -/
def downloadImage : FetchBehavior → Except String (String × String)
  | .netFail m => .error m
  | .reply r =>
    if r.status != 200 then .error ("HTTP " ++ toString r.status)
    else
      match r.readResult with
      | .error m => .error m
      | .ok data => .ok (data, r.contentType)

/-- The HTTP status observed by a fetch, when a response arrived at all. -/
def fetchStatus : FetchBehavior → Option Nat
  | .netFail _ => none
  | .reply r => some r.status

/-! ## IdentityResolver (`getUserID`, src/main.go lines 180-205) -/

/-- What the identity endpoint returns: status, raw body (used in the error
text), and the result of JSON-decoding the body into `UserInfo.ID`. -/
structure IdReply where
  status : Nat
  body : String
  decoded : Except String String

/-- Behavior oracle for the single `GET /api/v4/users/me` call. -/
inductive IdentityBehavior where
  | netFail (msg : String)
  | reply (r : IdReply)

/-- `getUserID`: transport error passed through; non-200 status yields
"status <code>: <body>"; then the decode result (user id or decode error). -/
def getUserID : IdentityBehavior → Except String String
  | .netFail m => .error m
  | .reply r =>
    if r.status != 200 then .error ("status " ++ toString r.status ++ ": " ++ r.body)
    else r.decoded

/-! ## ImportOrchestrator (the loop of `main`, src/main.go lines 103-137) -/

/-- Behavior oracle for one `client.Do` call of `uploadToMattermost`. -/
inductive UploadBehavior where
  | netFail (msg : String)
  | reply (resp : HttpResponse)
deriving DecidableEq

/-- The error value of `uploadToMattermost` for a given network behavior:
a transport failure is returned as-is, a response is classified by status. -/
def uploadSend : UploadBehavior → Option String
  | .netFail m => some m
  | .reply resp => uploadRespResult resp

/-- The observable side effects of one iteration of the loop, in order:
a `downloadImage` call, an `uploadToMattermost` call, and the
`time.Sleep(200 * time.Millisecond)` pause. -/
inductive Action where
  | fetchCall
  | uploadCall
  | sleepMs (ms : Nat)
deriving DecidableEq

/-- One manifest entry: the original (arbitrary Unicode) name and its source
value, either an image URL or an "alias:<name>" reference. -/
structure Entry where
  originalName : String
  source : String
deriving DecidableEq

/-- The network behaviors an entry will encounter if the run reaches the
corresponding calls. -/
structure EntryEnv where
  fetch : FetchBehavior
  upload : UploadBehavior

/-- One iteration of `main`'s loop (src/main.go lines 103-137), as outcome
plus the ordered trace of observable actions.  The `continue` statements of
the alias branch and the download-error branch leave the loop body before
the final `time.Sleep`, so those two paths contribute no sleep action. -/
def processEntry (source : String) (env : EntryEnv) : Outcome × List Action :=
  if "alias:".toList.isPrefixOf source.toList then
    (Outcome.AliasSkipped, [])
  else
    match downloadImage env.fetch with
    | .error e => (Outcome.FetchFailed e, [Action.fetchCall])
    | .ok _ =>
      match uploadSend env.upload with
      | some msg => (classifyUploadError msg, [Action.fetchCall, Action.uploadCall, Action.sleepMs 200])
      | none => (Outcome.Uploaded, [Action.fetchCall, Action.uploadCall, Action.sleepMs 200])

/-- The whole loop: one outcome per entry, in iteration order, with the
concatenated action trace. -/
def runEntries : List (Entry × EntryEnv) → List (Entry × Outcome) × List Action
  | [] => ([], [])
  | (e, env) :: rest =>
    let r := processEntry e.source env
    let rr := runEntries rest
    ((e, r.1) :: rr.1, r.2 ++ rr.2)

/-- `main` after configuration loading: resolve the identity once; on
failure return before the loop (no outcomes, no actions); on success run
every entry. -/
def runMain (idb : IdentityBehavior) (entries : List (Entry × EntryEnv)) :
    Option (List (Entry × Outcome)) × List Action :=
  match getUserID idb with
  | .error _ => (none, [])
  | .ok _ => (some (runEntries entries).1, (runEntries entries).2)

/-! ## Claim C2: placement of the 200ms pause -/

/-- Claim C2 counterexample: the pause is not uniform over terminal states.
An alias entry leaves the loop body through `continue` before the
`time.Sleep` call, so its trace contains no 200ms pause (here the trace is
empty), contradicting the claim that the orchestrator pauses after every
entry including alias-skipped ones. -/
theorem pause_counterexample :
    (processEntry "alias:squirrel"
        ⟨FetchBehavior.netFail "unused", UploadBehavior.netFail "unused"⟩).1 =
      Outcome.AliasSkipped ∧
    Action.sleepMs 200 ∉
      (processEntry "alias:squirrel"
        ⟨FetchBehavior.netFail "unused", UploadBehavior.netFail "unused"⟩).2 := by
  decide

/-- Claim C2 amended: the fixed 200ms pause occurs after exactly the entries
whose terminal state is an upload outcome (Uploaded, DuplicateSkipped or
UploadFailed); alias-skipped and fetch-failed entries advance to the next
entry immediately, with no pause. -/
theorem pause_after_upload_amended (source : String) (env : EntryEnv) :
    Action.sleepMs 200 ∈ (processEntry source env).2 ↔
      (processEntry source env).1 = Outcome.Uploaded ∨
      (processEntry source env).1 = Outcome.DuplicateSkipped ∨
      ∃ d, (processEntry source env).1 = Outcome.UploadFailed d := by
  unfold processEntry
  split
  · simp
  · cases hdl : downloadImage env.fetch with
    | error e => simp
    | ok v =>
      cases hup : uploadSend env.upload with
      | none => simp
      | some msg =>
        simp only [classifyUploadError]
        split <;> simp

/-! ## Claim C6: alias entries -/

/-- Claim C6: an entry whose source starts with the literal prefix "alias:"
yields the AliasSkipped outcome with an empty action trace — no fetch call,
no upload call, no pause — whatever the rest of the entry and the network
would have done, and regardless of the sanitized name. -/
theorem alias_skip (source : String) (env : EntryEnv)
    (h : "alias:".toList.isPrefixOf source.toList = true) :
    processEntry source env = (Outcome.AliasSkipped, []) := by
  unfold processEntry
  rw [if_pos h]

theorem alias_skip_witness :
    processEntry "alias:squirrel"
        ⟨FetchBehavior.reply ⟨200, Except.ok "img", "image/png"⟩,
         UploadBehavior.reply ⟨200, "ok"⟩⟩ =
      (Outcome.AliasSkipped, []) :=
  alias_skip "alias:squirrel" _ (by decide)

/-! ## Claim C7: fetch classification -/

/-- Claim C7: a fetch succeeds only when the observed HTTP status is the
success status 200; a reply with any other status yields the error
"HTTP <status>" carrying that code; and in an entry whose fetch replies 404,
the outcome is FetchFailed with "HTTP 404" as detail and the trace holds the
fetch call only — no upload call is attempted, and the run continues. -/
theorem fetch_classification :
    (∀ (b : FetchBehavior) (d ct : String),
        downloadImage b = Except.ok (d, ct) → fetchStatus b = some 200) ∧
    (∀ r : FetchReply, r.status ≠ 200 →
        downloadImage (FetchBehavior.reply r) = Except.error ("HTTP " ++ toString r.status)) ∧
    (∀ (source : String) (env : EntryEnv) (r : FetchReply),
        "alias:".toList.isPrefixOf source.toList = false →
        env.fetch = FetchBehavior.reply r → r.status = 404 →
        processEntry source env = (Outcome.FetchFailed "HTTP 404", [Action.fetchCall])) := by
  refine ⟨?_, ?_, ?_⟩
  · intro b d ct h
    cases b with
    | netFail m => exact absurd h (by simp [downloadImage])
    | reply r =>
      simp only [downloadImage] at h
      by_cases h200 : r.status = 200
      · rw [fetchStatus, h200]
      · rw [if_pos (by simpa using h200)] at h
        exact absurd h (by simp)
  · intro r h
    simp only [downloadImage]
    rw [if_pos (by simpa using h)]
  · intro source env r hsrc henv h404
    unfold processEntry
    rw [hsrc]
    simp only [Bool.false_eq_true, if_false, henv, downloadImage, h404]
    rfl

theorem fetch_classification_witness :
    processEntry "https://example.com/x.png"
        ⟨FetchBehavior.reply ⟨404, Except.ok "", "text/html"⟩, UploadBehavior.netFail "unused"⟩ =
      (Outcome.FetchFailed "HTTP 404", [Action.fetchCall]) :=
  fetch_classification.2.2 "https://example.com/x.png" _ ⟨404, Except.ok "", "text/html"⟩
    (by decide) rfl rfl

/-! ## Claim C8: per-entry accounting -/

/-- Whether an entry's fetch would succeed under its environment. -/
def fetchOk (env : EntryEnv) : Bool :=
  (downloadImage env.fetch).isOk

theorem processEntry_counts (source : String) (env : EntryEnv)
    (h : "alias:".toList.isPrefixOf source.toList = false) :
    (processEntry source env).2.count Action.fetchCall = 1 ∧
      (processEntry source env).2.count Action.uploadCall =
        (if fetchOk env then 1 else 0) := by
  unfold processEntry fetchOk
  rw [h]
  simp only [Bool.false_eq_true, if_false]
  cases hdl : downloadImage env.fetch with
  | error e => simp [hdl, Except.isOk, Except.toBool]
  | ok v =>
    cases uploadSend env.upload <;> simp [hdl, Except.isOk, Except.toBool, List.count_cons]

theorem runEntries_map_fst (l : List (Entry × EntryEnv)) :
    (runEntries l).1.map Prod.fst = l.map Prod.fst := by
  induction l with
  | nil => rfl
  | cons p rest ih =>
    obtain ⟨e, env⟩ := p
    simp only [runEntries, List.map_cons]
    rw [ih]

/-- Claim C8: for every manifest — alias entries included — each entry is
processed exactly once and yields exactly one OutcomeRecord (the outcome
list pairs off with the entry list, in order); and when every entry is a
non-alias entry, the run performs exactly one fetch per entry (N in total)
and exactly one upload per entry whose fetch succeeded — hence at most N
uploads. -/
theorem run_counts (l : List (Entry × EntryEnv)) :
    (runEntries l).1.map Prod.fst = l.map Prod.fst ∧
      ((∀ p ∈ l, "alias:".toList.isPrefixOf p.1.source.toList = false) →
        (runEntries l).2.count Action.fetchCall = l.length ∧
          (runEntries l).2.count Action.uploadCall =
            (l.filter fun p => fetchOk p.2).length ∧
          (runEntries l).2.count Action.uploadCall ≤ l.length) := by
  refine ⟨runEntries_map_fst l, fun h => ?_⟩
  have key : (runEntries l).2.count Action.fetchCall = l.length ∧
      (runEntries l).2.count Action.uploadCall =
        (l.filter fun p => fetchOk p.2).length := by
    induction l with
    | nil => exact ⟨rfl, rfl⟩
    | cons p rest ih =>
      obtain ⟨e, env⟩ := p
      have hp := h (e, env) (List.mem_cons_self _ _)
      have hrest := ih (fun q hq => h q (List.mem_cons_of_mem _ hq))
      obtain ⟨hc1, hc2⟩ := processEntry_counts e.source env hp
      simp only [runEntries, List.count_append, List.length_cons, List.filter_cons]
      constructor
      · rw [hc1, hrest.1]
        omega
      · rw [hc2, hrest.2]
        cases hfo : fetchOk env <;> simp [Nat.add_comm]
  refine ⟨key.1, key.2, ?_⟩
  rw [key.2]
  calc (l.filter fun p => fetchOk p.2).length ≤ l.length := List.length_filter_le _ l

theorem run_counts_witness :
    (runEntries
        [(⟨"shipit", "alias:squirrel"⟩,
          ⟨FetchBehavior.netFail "unused", UploadBehavior.netFail "unused"⟩),
         (⟨"ok", "https://a/ok.png"⟩,
          ⟨FetchBehavior.reply ⟨200, Except.ok "img", "image/png"⟩,
           UploadBehavior.reply ⟨201, "created"⟩⟩)]).1.map Prod.fst =
      [⟨"shipit", "alias:squirrel"⟩, ⟨"ok", "https://a/ok.png"⟩] ∧
    (runEntries
        [(⟨"ok", "https://a/ok.png"⟩,
          ⟨FetchBehavior.reply ⟨200, Except.ok "img", "image/png"⟩,
           UploadBehavior.reply ⟨201, "created"⟩⟩),
         (⟨"gone", "https://a/gone.png"⟩,
          ⟨FetchBehavior.reply ⟨404, Except.ok "", "text/html"⟩,
           UploadBehavior.netFail "unused"⟩)]).2.count Action.fetchCall = 2 :=
  ⟨(run_counts _).1, ((run_counts _).2 (by decide)).1⟩

/-! ## Claim C9: only pre-loop failures are fatal -/

/-- Claim C9: when identity resolution fails, the run aborts before the loop
with no outcomes and no actions at all (no fetch, no upload); when it
succeeds, every entry is processed to an outcome whatever its per-entry
failures are — the outcome list always has one record per entry, so no
fetch error, upload error or duplicate aborts the run. -/
theorem fatal_vs_perentry (idb : IdentityBehavior) (entries : List (Entry × EntryEnv)) :
    (∀ e, getUserID idb = Except.error e → runMain idb entries = (none, [])) ∧
    (∀ uid, getUserID idb = Except.ok uid →
      (runMain idb entries).1 = some (runEntries entries).1 ∧
        (runEntries entries).1.length = entries.length) := by
  constructor
  · intro e he
    unfold runMain
    rw [he]
  · intro uid huid
    constructor
    · unfold runMain
      rw [huid]
    · have := congrArg List.length (runEntries_map_fst entries)
      simpa using this

theorem fatal_vs_perentry_witness :
    runMain (IdentityBehavior.netFail "connection refused")
        [(⟨"ok", "https://a/ok.png"⟩,
          ⟨FetchBehavior.reply ⟨200, Except.ok "img", "image/png"⟩,
           UploadBehavior.reply ⟨201, "created"⟩⟩)] =
      (none, []) :=
  (fatal_vs_perentry (IdentityBehavior.netFail "connection refused") _).1
    "connection refused" rfl

/-! ## Claim C10: the multipart metadata part -/

/-- The "emoji" form field built by `uploadToMattermost` (src/main.go line
213): verbatim interpolation of the name and the creator id into JSON text
by `fmt.Sprintf`, with no escaping of either value. -/
def emojiMeta (name creatorID : String) : String :=
  "\x7b\"name\":\"" ++ name ++ "\",\"creator_id\":\"" ++ creatorID ++ "\"\x7d"

/-- The characters that may follow a backslash in a JSON string (RFC 8259)
as a single-character escape. -/
def isJsonEscChar (c : Char) : Bool :=
  c == '"' || c == '\\' || c == '/' || c == 'b' || c == 'f' || c == 'n' || c == 'r' || c == 't'

/-- Consume a JSON string body up to and including its closing quote, per
the JSON grammar: an unescaped quote terminates, a backslash introduces a
single-character escape, and raw control characters below U+0020 are not
allowed.  (The six-character unicode escape of the full grammar is not
modelled; none of the statements below involves it.)  Returns the
characters after the closing quote, or `none` when the body is not a valid
string body. -/
def parseStringBody : List Char → Option (List Char)
  | [] => none
  | c :: rest =>
    if c = '"' then some rest
    else if c = '\\' then
      match rest with
      | [] => none
      | e :: rest2 => if isJsonEscChar e then parseStringBody rest2 else none
    else if 32 ≤ c.toNat then parseStringBody rest else none

/-- Consume an expected literal character sequence. -/
def expectChars : List Char → List Char → Option (List Char)
  | [], l => some l
  | _ :: _, [] => none
  | c :: cs, x :: xs => if c = x then expectChars cs xs else none

/-- Whether a string is a well-formed metadata part of the intended shape:
a JSON object with exactly the two string fields name and creator_id, in
that order, with JSON-valid string bodies and nothing else. -/
def checkEmojiMeta (s : String) : Bool :=
  match expectChars "\x7b\"name\":\"".toList s.toList with
  | none => false
  | some r1 =>
    match parseStringBody r1 with
    | none => false
    | some r2 =>
      match expectChars ",\"creator_id\":\"".toList r2 with
      | none => false
      | some r3 =>
        match parseStringBody r3 with
        | none => false
        | some r4 => r4 == ['\x7d']

/-- A character that may stand unescaped in a JSON string body. -/
def plainJsonChar (c : Char) : Bool :=
  !(c == '"') && !(c == '\\') && decide (32 ≤ c.toNat)

theorem expectChars_append (lit rest : List Char) :
    expectChars lit (lit ++ rest) = some rest := by
  induction lit with
  | nil => rfl
  | cons c cs ih => simp [expectChars, ih]

theorem parseStringBody_plain {l : List Char} (rest : List Char)
    (h : l.all plainJsonChar = true) :
    parseStringBody (l ++ '"' :: rest) = some rest := by
  induction l with
  | nil =>
    rw [List.nil_append, parseStringBody.eq_def]
    dsimp only
    simp
  | cons c cs ih =>
    rw [List.all_cons, Bool.and_eq_true] at h
    obtain ⟨hc, hcs⟩ := h
    simp only [plainJsonChar, Bool.and_eq_true, Bool.not_eq_true', beq_eq_false_iff_ne,
      ne_eq, decide_eq_true_eq] at hc
    obtain ⟨⟨hq, hb⟩, hge⟩ := hc
    rw [List.cons_append, parseStringBody.eq_def]
    dsimp only
    rw [if_neg hq, if_neg hb, if_pos hge]
    exact ih hcs

theorem emojiChar_plainJson {c : Char} (h : isEmojiChar c = true) :
    plainJsonChar c = true := by
  have h2 := isEmojiChar_toNat h
  have hq : c ≠ '"' := by
    intro he
    subst he
    revert h2
    decide
  have hb : c ≠ '\\' := by
    intro he
    subst he
    revert h2
    decide
  simp only [plainJsonChar, Bool.and_eq_true, Bool.not_eq_true', beq_eq_false_iff_ne,
    ne_eq, decide_eq_true_eq]
  exact ⟨⟨hq, hb⟩, by omega⟩

theorem emojiMeta_toList (name creatorID : String) :
    (emojiMeta name creatorID).toList =
      "\x7b\"name\":\"".toList ++
        (name.toList ++ ('"' :: (",\"creator_id\":\"".toList ++
          (creatorID.toList ++ ('"' :: ['\x7d']))))) := by
  show (emojiMeta name creatorID).data = _
  simp [emojiMeta, String.data_append, String.toList, List.append_assoc]

/-- Claim C10 counterexample: it is not true that every creator id
containing a double quote or a backslash produces a malformed metadata
part.  The id consisting of the four characters a, backslash, quote, b
contains both, yet its verbatim interpolation happens to read as a valid
JSON escape, so the metadata part is well-formed (with a decoded value that
differs from the id). -/
theorem emoji_meta_counterexample :
    ('"' ∈ "a\\\"b".toList ∧ '\\' ∈ "a\\\"b".toList) ∧
      checkEmojiMeta (emojiMeta "x" "a\\\"b") = true := by
  decide

/-- Claim C10 amended: the metadata part is the verbatim interpolation of
name and creator id into the JSON object text, with no escaping of either
value; for every name drawn from the sanitized alphabet and every creator
id free of quotes, backslashes and control characters the result is a
well-formed two-field JSON object; and there are ids containing a double
quote for which the part is malformed — for instance the one-character id
consisting of a double quote — though not every id containing a quote or a
backslash is (a quote or backslash whose interpolation happens to form a
valid JSON escape yields a well-formed part with a different decoded
value). -/
theorem emoji_meta_amended (name creatorID : String)
    (hname : name.toList.all isEmojiChar = true)
    (hid : creatorID.toList.all plainJsonChar = true) :
    emojiMeta name creatorID =
      "\x7b\"name\":\"" ++ name ++ "\",\"creator_id\":\"" ++ creatorID ++ "\"\x7d" ∧
    checkEmojiMeta (emojiMeta name creatorID) = true ∧
    checkEmojiMeta (emojiMeta name "\"") = false := by
  have hnamePlain : name.toList.all plainJsonChar = true := by
    rw [List.all_eq_true] at hname ⊢
    exact fun c hc => emojiChar_plainJson (hname c hc)
  refine ⟨rfl, ?_, ?_⟩
  · unfold checkEmojiMeta
    rw [emojiMeta_toList, expectChars_append]
    dsimp only
    rw [parseStringBody_plain _ hnamePlain]
    dsimp only
    rw [expectChars_append]
    dsimp only
    rw [parseStringBody_plain _ hid]
    decide
  · unfold checkEmojiMeta
    rw [emojiMeta_toList, expectChars_append]
    dsimp only
    rw [parseStringBody_plain _ hnamePlain]
    dsimp only
    rw [expectChars_append]
    decide

theorem emoji_meta_amended_witness :
    checkEmojiMeta (emojiMeta "smile" "8a9b0c1d2e3f4g5h6i7j") = true ∧
      checkEmojiMeta (emojiMeta "smile" "\"") = false := by
  have h := emoji_meta_amended "smile" "8a9b0c1d2e3f4g5h6i7j" (by decide) (by decide)
  exact ⟨h.2.1, h.2.2⟩

end MattermostEmojiUploader
